import Mathlib

/-!
Shallow embedding of `etl.py`, a batch ETL script that reads song-metadata
and user-activity-log JSON files and inserts shaped rows into the tables
songs, artists, time, users and songplays of a star schema.

Side effects (SQL statements issued through the cursor, and transaction
commits on the connection) are modelled as an explicit trace of events.
The database answering the `song_select` lookup is an oracle function.
Timestamps are natural numbers of milliseconds since the Unix epoch, and
the pandas datetime accessors (`dt.hour`, `dt.day`, `dt.weekofyear`,
`dt.month`, `dt.year`, `dt.weekday`, `dt.time`) are embedded as Gregorian
calendar arithmetic on those milliseconds.
-/

/-- A SQL parameter value: a string, a number, a time-of-day value
(hour, minute, second, microsecond), or SQL NULL (Python `None`).
Opaque payloads (floats, free text) are carried as `str`. -/
inductive Value where
  | str (s : String)
  | num (n : Int)
  | time (hour minute second micro : Nat)
  | null
deriving DecidableEq, Repr

/-- One record of a song-metadata JSON file, with the fields
`process_song_file` reads from the dataframe. -/
structure SongRecord where
  song_id : Value
  title : Value
  artist_id : Value
  year : Value
  duration : Value
  artist_name : Value
  artist_location : Value
  artist_latitude : Value
  artist_longitude : Value
deriving DecidableEq, Repr

/-- One row of a user-activity log JSON file, with the fields
`process_log_file` reads. `ts` is milliseconds since the Unix epoch. -/
structure LogRow where
  ts : Nat
  page : String
  userId : Value
  firstName : Value
  lastName : Value
  gender : Value
  level : Value
  song : Value
  artist : Value
  length : Value
  sessionId : Value
  location : Value
  userAgent : Value
deriving DecidableEq, Repr

/-- An observable effect of the program: a parameterized insert executed on
the cursor for one of the five tables, the `song_select` lookup query, or a
transaction commit on the connection. -/
inductive Event where
  | songInsert (data : List Value)
  | artistInsert (data : List Value)
  | timeInsert (data : List Value)
  | userInsert (data : List Value)
  | songSelect (title artist duration : Value)
  | songplayInsert (data : List Value)
  | commit
deriving DecidableEq, Repr

/-- The database oracle: given the parameters of `song_select`
(title, artist name, duration), returns the matching
(song_id, artist_id) pair, or `none` when no row matches
(`cur.fetchone()` returning `None`). -/
def Db : Type := Value → Value → Value → Option (Value × Value)

/-! ### Timestamp decomposition (pandas `to_datetime(unit="ms")` accessors) -/

/-- Milliseconds in one day. -/
def msPerDay : Nat := 86400000

/-- `dt.hour`: hour of day (UTC) of a millisecond timestamp. -/
def hourOf (ts : Nat) : Nat := ts / 3600000 % 24

/-- Minute of hour of a millisecond timestamp. -/
def minuteOf (ts : Nat) : Nat := ts / 60000 % 60

/-- Second of minute of a millisecond timestamp. -/
def secondOf (ts : Nat) : Nat := ts / 1000 % 60

/-- Microsecond component of a millisecond timestamp. -/
def microOf (ts : Nat) : Nat := ts % 1000 * 1000

/-- `dt.time`: the time-of-day value of a millisecond timestamp. -/
def timeOfDayVal (ts : Nat) : Value :=
  Value.time (hourOf ts) (minuteOf ts) (secondOf ts) (microOf ts)

/-- Civil (Gregorian) date from a count of days since 1970-01-01,
returning (year, month, day). Standard days-to-civil algorithm. -/
def civilFromDays (z : Nat) : Nat × Nat × Nat :=
  let z := z + 719468
  let era := z / 146097
  let doe := z % 146097
  let yoe := (doe - doe / 1460 + doe / 36524 - doe / 146096) / 365
  let y := yoe + era * 400
  let doy := doe - (365 * yoe + yoe / 4 - yoe / 100)
  let mp := (5 * doy + 2) / 153
  let d := doy - (153 * mp + 2) / 5 + 1
  let m := if mp < 10 then mp + 3 else mp - 9
  (if m ≤ 2 then y + 1 else y, m, d)

/-- `dt.year` of a millisecond timestamp. -/
def yearOf (ts : Nat) : Nat := (civilFromDays (ts / msPerDay)).1

/-- `dt.month` of a millisecond timestamp. -/
def monthOf (ts : Nat) : Nat := (civilFromDays (ts / msPerDay)).2.1

/-- `dt.day` (day of month) of a millisecond timestamp. -/
def dayOf (ts : Nat) : Nat := (civilFromDays (ts / msPerDay)).2.2

/-- `dt.weekday`: day of week with Monday = 0 (1970-01-01 was a Thursday). -/
def weekdayOf (ts : Nat) : Nat := (ts / msPerDay + 3) % 7

/-- Gregorian leap-year test. -/
def isLeap (y : Nat) : Bool := (y % 4 == 0 && y % 100 != 0) || y % 400 == 0

/-- Days in the months strictly before month `m` of year `y`. -/
def daysBeforeMonth (y m : Nat) : Nat :=
  let base :=
    match m with
    | 1 => 0 | 2 => 31 | 3 => 59 | 4 => 90 | 5 => 120 | 6 => 151
    | 7 => 181 | 8 => 212 | 9 => 243 | 10 => 273 | 11 => 304 | _ => 334
  if isLeap y && m > 2 then base + 1 else base

/-- Day of year, 1-based, of the civil date (y, m, d). -/
def dayOfYearOf (y m d : Nat) : Nat := daysBeforeMonth y m + d

/-- Day of week of 31 December of year `y` (0 = Sunday convention used by
the ISO week-count formula). -/
def pCal (y : Nat) : Nat := (y + y / 4 - y / 100 + y / 400) % 7

/-- Number of ISO weeks in year `y` (52 or 53). -/
def weeksInYear (y : Nat) : Nat :=
  if pCal y = 4 ∨ pCal (y - 1) = 3 then 53 else 52

/-- `dt.weekofyear`: ISO-8601 week number of a millisecond timestamp. -/
def weekOfYearOf (ts : Nat) : Nat :=
  let z := ts / msPerDay
  let c := civilFromDays z
  let doy := dayOfYearOf c.1 c.2.1 c.2.2
  let wd := (z + 3) % 7 + 1
  let w := (doy + 10 - wd) / 7
  if w = 0 then weeksInYear (c.1 - 1)
  else if w = 53 ∧ weeksInYear c.1 = 52 then 1
  else w

/-! ### `process_song_file` -/

/-- The `song_data` parameter list built from the first dataframe record. -/
def songData (r : SongRecord) : List Value :=
  [r.song_id, r.title, r.artist_id, r.year, r.duration]

/-- The `artist_data` parameter list built from the first dataframe record. -/
def artistData (r : SongRecord) : List Value :=
  [r.artist_id, r.artist_name, r.artist_location, r.artist_latitude,
   r.artist_longitude]

/-- `process_song_file(cur, filepath)`: reads the file into a dataframe and
inserts `values[0]` (the first record) into songs and artists. On an empty
file, indexing `values[0]` raises `IndexError` before any insert, modelled
as `some ()` in the error component. -/
def processSongFile (records : List SongRecord) : List Event × Option Unit :=
  match records with
  | [] => ([], some ())
  | r :: _ =>
    ([Event.songInsert (songData r), Event.artistInsert (artistData r)], none)

/-! ### `process_log_file` -/

/-- The filter `df[df["page"] == "NextSong"]` applied to a row. -/
def isNextSong (r : LogRow) : Bool := r.page == "NextSong"

/-- One row of `time_df`: the parameter list of one `time_table_insert`,
columns (timestamp, hour, day, week of year, month, year, weekday), all
derived from the `ts` column via `pd.to_datetime(unit="ms")`. -/
def timeRow (ts : Nat) : List Value :=
  [timeOfDayVal ts, Value.num (hourOf ts), Value.num (dayOf ts),
   Value.num (weekOfYearOf ts), Value.num (monthOf ts),
   Value.num (yearOf ts), Value.num (weekdayOf ts)]

/-- One row of `user_df`: the parameter list of one `user_table_insert`. -/
def userRow (r : LogRow) : List Value :=
  [r.userId, r.firstName, r.lastName, r.gender, r.level]

/-- Left-pad the decimal representation of `n` with zeros to width `w`. -/
def padNum (w n : Nat) : String :=
  let s := toString n
  String.mk (List.replicate (w - s.length) '0') ++ s

/-- `datetime.datetime.fromtimestamp(row.ts / 1e3).strftime("%H:%M:%S.%f")`:
the local time of day of the timestamp, formatted HH:MM:SS.microseconds.
`fromtimestamp` converts to the local timezone; `tz` is the fixed local
offset from UTC in milliseconds (modulo one day). -/
def startTimeStr (tz ts : Nat) : String :=
  let m := (ts + tz) % msPerDay
  padNum 2 (m / 3600000) ++ ":" ++ padNum 2 (m / 60000 % 60) ++ ":" ++
    padNum 2 (m / 1000 % 60) ++ "." ++ padNum 6 (m % 1000 * 1000)

/-- The `songid, artistid` pair of a row: the result of `cur.fetchone()`
after `cur.execute(song_select, (row.song, row.artist, row.length))`, or
`(None, None)` when no row matched. -/
def lookupIds (db : Db) (r : LogRow) : Value × Value :=
  match db r.song r.artist r.length with
  | some (s, a) => (s, a)
  | none => (Value.null, Value.null)

/-- The `songplay_data` parameter list of one `songplay_table_insert`:
(start_time, userId, level, songid, artistid, sessionId, location,
userAgent). -/
def songplayRow (db : Db) (tz : Nat) (r : LogRow) : List Value :=
  [Value.str (startTimeStr tz r.ts), r.userId, r.level, (lookupIds db r).1,
   (lookupIds db r).2, r.sessionId, r.location, r.userAgent]

/-- One iteration of the songplay loop: the lookup query followed by the
songplay insert. -/
def songplayEvents (db : Db) (tz : Nat) (r : LogRow) : List Event :=
  [Event.songSelect r.song r.artist r.length,
   Event.songplayInsert (songplayRow db tz r)]

/-- `process_log_file(cur, filepath)`: filters the dataframe to the
NextSong rows, then runs three loops over the filtered frame in order:
time-table inserts, user-table inserts, and the lookup/songplay-insert
pairs. -/
def processLogFile (db : Db) (tz : Nat) (rows : List LogRow) : List Event :=
  let df := rows.filter isNextSong
  df.map (fun r => Event.timeInsert (timeRow r.ts)) ++
    df.map (fun r => Event.userInsert (userRow r)) ++
    df.flatMap (songplayEvents db tz)

/-! ### `process_data` and `main` -/

/-- `process_data(cur, conn, filepath, func)`, after file discovery: for
each file in order, call `func` on it and then `conn.commit()`. `func`
yields the events it executed and, possibly, a raised error; an uncaught
error skips the commit for that file, stops the loop, and propagates.
Returns the full event trace and the propagated error, if any. -/
def processData {α ε : Type} (func : α → List Event × Option ε) :
    List α → List Event × Option ε
  | [] => ([], none)
  | f :: fs =>
    match func f with
    | (evs, some e) => (evs, some e)
    | (evs, none) =>
      let rest := processData func fs
      (evs ++ Event.commit :: rest.1, rest.2)

/-- A directory tree: a named plain file or a named directory with a list
of children. -/
inductive Entry where
  | file (name : String)
  | dir (name : String) (children : List Entry)

mutual

/-- File discovery under one entry: the paths (as component lists) of the
files whose name matches the glob pattern `*.json`, recursively. -/
def discoverEntry : Entry → List (List String)
  | .file f => if f.endsWith ".json" then [[f]] else []
  | .dir d cs => (discoverList cs).map (fun p => d :: p)

/-- File discovery across a list of sibling entries. -/
def discoverList : List Entry → List (List String)
  | [] => []
  | c :: cs => discoverEntry c ++ discoverList cs

end

/-- The file-discovery loop of `process_data`: walk the root directory
with `os.walk` and collect, from every directory of the tree, the files
matching `glob.glob(os.path.join(root, "*.json"))`. `os.walk` on a path
that is not a directory yields nothing. -/
def walkFiles : Entry → List (List String)
  | .file _ => []
  | .dir d cs => discoverEntry (.dir d cs)

/-- `main()`: connect, then `process_data` over `data/song_data` with
`process_song_file`, then `process_data` over `data/log_data` with
`process_log_file`. An error raised in the first phase propagates out of
`main` and the second phase never runs. File contents are supplied by the
oracles `songOf` and `logOf` mapping a path to the records in the file. -/
def mainTrace (db : Db) (tz : Nat) (songTree logTree : Entry)
    (songOf : List String → List SongRecord)
    (logOf : List String → List LogRow) : List Event × Option Unit :=
  let song := processData (fun p => processSongFile (songOf p))
    (walkFiles songTree)
  match song.2 with
  | some e => (song.1, some e)
  | none =>
    let log := processData (fun p => (processLogFile db tz (logOf p), none))
      (walkFiles logTree)
    (song.1 ++ log.1, log.2)

/-! ### Event classifiers and sample data -/

/-- Tests whether an event is a songs-table insert. -/
def Event.isSongInsert : Event → Bool
  | .songInsert _ => true
  | _ => false

/-- Tests whether an event is an artists-table insert. -/
def Event.isArtistInsert : Event → Bool
  | .artistInsert _ => true
  | _ => false

/-- Tests whether an event is a time-table insert. -/
def Event.isTimeInsert : Event → Bool
  | .timeInsert _ => true
  | _ => false

/-- Tests whether an event is a users-table insert. -/
def Event.isUserInsert : Event → Bool
  | .userInsert _ => true
  | _ => false

/-- Tests whether an event is the `song_select` lookup query. -/
def Event.isSongSelect : Event → Bool
  | .songSelect _ _ _ => true
  | _ => false

/-- Tests whether an event is a songplays-table insert. -/
def Event.isSongplayInsert : Event → Bool
  | .songplayInsert _ => true
  | _ => false

/-- Whether the final path component matches the glob pattern `*.json`. -/
def jsonName (p : List String) : Bool :=
  match p.getLast? with
  | some f => f.endsWith ".json"
  | none => false

/-- A path reaching a file inside a directory tree. -/
inductive PathTo : List String → Entry → Prop where
  | file (f : String) : PathTo [f] (.file f)
  | dir (d : String) (cs : List Entry) (c : Entry) (p : List String) :
      c ∈ cs → PathTo p c → PathTo (d :: p) (.dir d cs)

/-- A concrete song-metadata record, for witnesses. -/
def sampleSong : SongRecord :=
  { song_id := Value.str "SOMZWCG12A8C13C480"
    title := Value.str "I Did Not See"
    artist_id := Value.str "ARD7TVE1187B99BFB1"
    year := Value.num 0
    duration := Value.str "218.93179"
    artist_name := Value.str "Casual"
    artist_location := Value.str "California - LA"
    artist_latitude := Value.null
    artist_longitude := Value.null }

/-- A concrete NextSong log row, for witnesses. -/
def sampleRow : LogRow :=
  { ts := 1541903636796
    page := "NextSong"
    userId := Value.num 69
    firstName := Value.str "Anabelle"
    lastName := Value.str "Simpson"
    gender := Value.str "F"
    level := Value.str "free"
    song := Value.str "Love Story"
    artist := Value.str "Taylor Swift"
    length := Value.str "236.14649"
    sessionId := Value.num 256
    location := Value.str "Philadelphia"
    userAgent := Value.str "Mozilla" }

/-- An always-empty database oracle, for witnesses. -/
def emptyDb : Db := fun _ _ _ => none

/-! ### Helper lemmas -/

theorem filter_map_eq_self {α : Type} (p : Event → Bool) (f : α → Event)
    (l : List α) (h : ∀ a, p (f a) = true) :
    (l.map f).filter p = l.map f := by
  induction l with
  | nil => rfl
  | cons a l ih => simp [List.filter_cons, h a, ih]

theorem filter_map_eq_nil {α : Type} (p : Event → Bool) (f : α → Event)
    (l : List α) (h : ∀ a, p (f a) = false) :
    (l.map f).filter p = [] := by
  induction l with
  | nil => rfl
  | cons a l ih => simp [List.filter_cons, h a, ih]

theorem filter_flatMap_eq_nil {α : Type} (p : Event → Bool)
    (g : α → List Event) (l : List α) (h : ∀ a, (g a).filter p = []) :
    (l.flatMap g).filter p = [] := by
  induction l with
  | nil => rfl
  | cons a l ih => simp [List.flatMap_cons, List.filter_append, h a, ih]

theorem filter_flatMap_eq_map {α : Type} (p : Event → Bool)
    (g : α → List Event) (f : α → Event) (l : List α)
    (h : ∀ a, (g a).filter p = [f a]) :
    (l.flatMap g).filter p = l.map f := by
  induction l with
  | nil => rfl
  | cons a l ih => simp [List.flatMap_cons, List.filter_append, h a, ih]

theorem processLogFile_filter_time (db : Db) (tz : Nat) (rows : List LogRow) :
    (processLogFile db tz rows).filter Event.isTimeInsert
      = (rows.filter isNextSong).map (fun r => Event.timeInsert (timeRow r.ts)) := by
  have h1 := filter_map_eq_self Event.isTimeInsert
    (fun r => Event.timeInsert (timeRow r.ts)) (rows.filter isNextSong)
    (fun a => rfl)
  have h2 := filter_map_eq_nil Event.isTimeInsert
    (fun r => Event.userInsert (userRow r)) (rows.filter isNextSong)
    (fun a => rfl)
  have h3 := filter_flatMap_eq_nil Event.isTimeInsert (songplayEvents db tz)
    (rows.filter isNextSong) (fun a => rfl)
  unfold processLogFile
  rw [List.filter_append, List.filter_append, h1, h2, h3]
  simp

theorem processLogFile_filter_user (db : Db) (tz : Nat) (rows : List LogRow) :
    (processLogFile db tz rows).filter Event.isUserInsert
      = (rows.filter isNextSong).map (fun r => Event.userInsert (userRow r)) := by
  have h1 := filter_map_eq_nil Event.isUserInsert
    (fun r => Event.timeInsert (timeRow r.ts)) (rows.filter isNextSong)
    (fun a => rfl)
  have h2 := filter_map_eq_self Event.isUserInsert
    (fun r => Event.userInsert (userRow r)) (rows.filter isNextSong)
    (fun a => rfl)
  have h3 := filter_flatMap_eq_nil Event.isUserInsert (songplayEvents db tz)
    (rows.filter isNextSong) (fun a => rfl)
  unfold processLogFile
  rw [List.filter_append, List.filter_append, h1, h2, h3]
  simp

theorem processLogFile_filter_select (db : Db) (tz : Nat) (rows : List LogRow) :
    (processLogFile db tz rows).filter Event.isSongSelect
      = (rows.filter isNextSong).map
          (fun r => Event.songSelect r.song r.artist r.length) := by
  have h1 := filter_map_eq_nil Event.isSongSelect
    (fun r => Event.timeInsert (timeRow r.ts)) (rows.filter isNextSong)
    (fun a => rfl)
  have h2 := filter_map_eq_nil Event.isSongSelect
    (fun r => Event.userInsert (userRow r)) (rows.filter isNextSong)
    (fun a => rfl)
  have h3 := filter_flatMap_eq_map Event.isSongSelect (songplayEvents db tz)
    (fun r => Event.songSelect r.song r.artist r.length)
    (rows.filter isNextSong) (fun a => rfl)
  unfold processLogFile
  rw [List.filter_append, List.filter_append, h1, h2, h3]
  simp

theorem processLogFile_filter_songplay (db : Db) (tz : Nat) (rows : List LogRow) :
    (processLogFile db tz rows).filter Event.isSongplayInsert
      = (rows.filter isNextSong).map
          (fun r => Event.songplayInsert (songplayRow db tz r)) := by
  have h1 := filter_map_eq_nil Event.isSongplayInsert
    (fun r => Event.timeInsert (timeRow r.ts)) (rows.filter isNextSong)
    (fun a => rfl)
  have h2 := filter_map_eq_nil Event.isSongplayInsert
    (fun r => Event.userInsert (userRow r)) (rows.filter isNextSong)
    (fun a => rfl)
  have h3 := filter_flatMap_eq_map Event.isSongplayInsert (songplayEvents db tz)
    (fun r => Event.songplayInsert (songplayRow db tz r))
    (rows.filter isNextSong) (fun a => rfl)
  unfold processLogFile
  rw [List.filter_append, List.filter_append, h1, h2, h3]
  simp

theorem commit_not_mem_processLogFile (db : Db) (tz : Nat)
    (rows : List LogRow) : Event.commit ∉ processLogFile db tz rows := by
  intro h
  simp only [processLogFile, List.mem_append, List.mem_map,
    List.mem_flatMap] at h
  rcases h with (⟨r, _, hr⟩ | ⟨r, _, hr⟩) | ⟨r, _, hr⟩
  · exact Event.noConfusion hr.symm
  · exact Event.noConfusion hr.symm
  · simp [songplayEvents] at hr

theorem commit_not_mem_processSongFile (records : List SongRecord) :
    Event.commit ∉ (processSongFile records).1 := by
  cases records with
  | nil => simp [processSongFile]
  | cons r rest => simp [processSongFile]

theorem processData_ok {α ε : Type} (func : α → List Event × Option ε)
    (files : List α) (h : ∀ f ∈ files, (func f).2 = none) :
    processData func files
      = (files.flatMap (fun f => (func f).1 ++ [Event.commit]), none) := by
  induction files with
  | nil => rfl
  | cons f fs ih =>
    have hf : (func f).2 = none := h f (List.mem_cons_self f fs)
    have hfs : ∀ g ∈ fs, (func g).2 = none :=
      fun g hg => h g (List.mem_cons_of_mem f hg)
    unfold processData
    rw [ih hfs]
    cases hfe : func f with
    | mk evs err =>
      rw [hfe] at hf
      cases err with
      | some e => exact absurd hf (by simp)
      | none => simp [hfe, List.flatMap_cons]

theorem processData_err {α ε : Type} (func : α → List Event × Option ε)
    (pre : List α) (f : α) (post : List α) (e : ε)
    (hpre : ∀ g ∈ pre, (func g).2 = none)
    (herr : (func f).2 = some e) :
    processData func (pre ++ f :: post)
      = (pre.flatMap (fun g => (func g).1 ++ [Event.commit]) ++ (func f).1,
         some e) := by
  induction pre with
  | nil =>
    simp only [List.nil_append, List.flatMap_nil]
    unfold processData
    cases hfe : func f with
    | mk evs err =>
      rw [hfe] at herr
      cases err with
      | some x =>
        simp only [Option.some.injEq] at herr
        subst herr
        simp [hfe]
      | none => exact absurd herr (by simp)
  | cons g gs ih =>
    have hg : (func g).2 = none := hpre g (List.mem_cons_self g gs)
    have hgs : ∀ x ∈ gs, (func x).2 = none :=
      fun x hx => hpre x (List.mem_cons_of_mem g hx)
    simp only [List.cons_append]
    unfold processData
    rw [ih hgs]
    cases hge : func g with
    | mk evs err =>
      rw [hge] at hg
      cases err with
      | some x => exact absurd hg (by simp)
      | none => simp [hge, List.flatMap_cons]

theorem pathTo_file_iff (p : List String) (f : String) :
    PathTo p (.file f) ↔ p = [f] := by
  constructor
  · intro h
    cases h
    rfl
  · intro h
    subst h
    exact PathTo.file f

theorem pathTo_dir_iff (p : List String) (d : String) (cs : List Entry) :
    PathTo p (.dir d cs) ↔ ∃ q, p = d :: q ∧ ∃ c ∈ cs, PathTo q c := by
  constructor
  · intro h
    cases h with
    | dir _ _ c q hc hq => exact ⟨q, rfl, c, hc, hq⟩
  · rintro ⟨q, rfl, c, hc, hq⟩
    exact PathTo.dir d cs c q hc hq

theorem pathTo_ne_nil (p : List String) (t : Entry) (h : PathTo p t) :
    p ≠ [] := by
  cases h <;> simp

theorem jsonName_cons (d : String) (q : List String) (h : q ≠ []) :
    jsonName (d :: q) = jsonName q := by
  cases q with
  | nil => exact absurd rfl h
  | cons a l => simp [jsonName, List.getLast?_cons_cons]

mutual

theorem discoverEntry_mem (t : Entry) (p : List String) :
    p ∈ discoverEntry t ↔ PathTo p t ∧ jsonName p = true := by
  cases t with
  | file f =>
    have hjf : jsonName [f] = f.endsWith ".json" := rfl
    constructor
    · intro hp
      simp only [discoverEntry] at hp
      by_cases hj : f.endsWith ".json"
      · rw [if_pos hj] at hp
        simp only [List.mem_singleton] at hp
        subst hp
        exact ⟨PathTo.file f, hjf.trans hj⟩
      · rw [if_neg hj] at hp
        simp at hp
    · rintro ⟨hp, hj⟩
      rw [pathTo_file_iff] at hp
      subst hp
      rw [hjf] at hj
      simp [discoverEntry, hj]
  | dir d cs =>
    simp only [discoverEntry, List.mem_map, pathTo_dir_iff]
    constructor
    · rintro ⟨q, hq, rfl⟩
      have := (discoverList_mem cs q).mp hq
      obtain ⟨⟨c, hc, hp⟩, hjson⟩ := this
      exact ⟨⟨q, rfl, c, hc, hp⟩,
        (jsonName_cons d q (pathTo_ne_nil q c hp)).trans hjson⟩
    · rintro ⟨⟨q, rfl, c, hc, hp⟩, hjson⟩
      refine ⟨q, (discoverList_mem cs q).mpr ⟨⟨c, hc, hp⟩, ?_⟩, rfl⟩
      exact (jsonName_cons d q (pathTo_ne_nil q c hp)).symm.trans hjson

theorem discoverList_mem (cs : List Entry) (p : List String) :
    p ∈ discoverList cs ↔ (∃ c ∈ cs, PathTo p c) ∧ jsonName p = true := by
  cases cs with
  | nil => simp [discoverList]
  | cons c cs =>
    simp only [discoverList, List.mem_append, discoverEntry_mem c p,
      discoverList_mem cs p, List.mem_cons]
    constructor
    · rintro (⟨hp, hj⟩ | ⟨⟨x, hx, hp⟩, hj⟩)
      · exact ⟨⟨c, Or.inl rfl, hp⟩, hj⟩
      · exact ⟨⟨x, Or.inr hx, hp⟩, hj⟩
    · rintro ⟨⟨x, hx | hx, hp⟩, hj⟩
      · subst hx
        exact Or.inl ⟨hp, hj⟩
      · exact Or.inr ⟨⟨x, hx, hp⟩, hj⟩

end

/-! ### Claim theorems -/

/-- C1, as stated, is false: `process_song_file` inserts only `values[0]`,
the first record of the file. For a file holding two records it issues one
song-table insert and one artist-table insert, not two of each. -/
theorem spec_c1_counterexample :
    ¬ (((processSongFile [sampleSong, sampleSong]).1.filter
          Event.isSongInsert).length = 2
       ∧ ((processSongFile [sampleSong, sampleSong]).1.filter
          Event.isArtistInsert).length = 2) := by
  decide

/-- C1 (amended): for every nonempty song-metadata file, exactly one
song-table insert and one artist-table insert are issued, both reshaped
from the first record of the file: the song insert carries
(song_id, title, artist_id, year, duration) and the artist insert carries
(artist_id, artist_name, artist_location, artist_latitude,
artist_longitude). -/
theorem spec_c1_first_record_only (r : SongRecord) (rest : List SongRecord) :
    processSongFile (r :: rest)
      = ([Event.songInsert [r.song_id, r.title, r.artist_id, r.year,
            r.duration],
          Event.artistInsert [r.artist_id, r.artist_name, r.artist_location,
            r.artist_latitude, r.artist_longitude]], none)
    ∧ ((processSongFile (r :: rest)).1.filter Event.isSongInsert).length = 1
    ∧ ((processSongFile (r :: rest)).1.filter Event.isArtistInsert).length
        = 1 :=
  ⟨rfl, rfl, rfl⟩

/-- C2: in `process_log_file`, the song/artist lookup events are exactly
one `song_select` per NextSong row, parameterized by
(row.song, row.artist, row.length) in that order; no other lookup is
issued. -/
theorem spec_c2_single_lookup (db : Db) (tz : Nat) (rows : List LogRow) :
    (processLogFile db tz rows).filter Event.isSongSelect
      = (rows.filter isNextSong).map
          (fun r => Event.songSelect r.song r.artist r.length) :=
  processLogFile_filter_select db tz rows

/-- C3: over any list of files all of which process successfully, the
trace of `process_data` is each file's events followed immediately by one
commit, and neither per-file procedure ever emits a commit itself, so
commits occur exactly between files. -/
theorem spec_c3_commit_per_file (db : Db) (tz : Nat)
    (songFiles : List (List SongRecord)) (logFiles : List (List LogRow))
    (f : List SongRecord) (g : List LogRow)
    (hok : ∀ s ∈ songFiles, (processSongFile s).2 = none) :
    (processData processSongFile songFiles).1
      = songFiles.flatMap (fun s => (processSongFile s).1 ++ [Event.commit])
    ∧ (processData (fun l => (processLogFile db tz l, (none : Option Unit)))
        logFiles).1
      = logFiles.flatMap (fun l => processLogFile db tz l ++ [Event.commit])
    ∧ Event.commit ∉ (processSongFile f).1
    ∧ Event.commit ∉ processLogFile db tz g := by
  refine ⟨?_, ?_, commit_not_mem_processSongFile f,
    commit_not_mem_processLogFile db tz g⟩
  · rw [processData_ok processSongFile songFiles hok]
  · rw [processData_ok
      (fun l => (processLogFile db tz l, (none : Option Unit))) logFiles
      (fun l _ => rfl)]

theorem spec_c3_commit_per_file_witness :
    (∀ s ∈ [[sampleSong]], (processSongFile s).2 = none)
    ∧ ((processData processSongFile [[sampleSong]]).1
        = [[sampleSong]].flatMap
            (fun s => (processSongFile s).1 ++ [Event.commit])
      ∧ (processData
            (fun l => (processLogFile emptyDb 0 l, (none : Option Unit)))
            [[sampleRow]]).1
        = [[sampleRow]].flatMap
            (fun l => processLogFile emptyDb 0 l ++ [Event.commit])
      ∧ Event.commit ∉ (processSongFile [sampleSong]).1
      ∧ Event.commit ∉ processLogFile emptyDb 0 [sampleRow]) :=
  ⟨by decide,
   spec_c3_commit_per_file emptyDb 0 [[sampleSong]] [[sampleRow]]
     [sampleSong] [sampleRow] (by decide)⟩

/-- C4: when processing one file raises an error, `process_data` commits
each earlier file right after processing it, issues no commit for the
failing file, processes none of the later files, and propagates the
error. -/
theorem spec_c4_error_propagation {α ε : Type}
    (func : α → List Event × Option ε) (pre : List α) (f : α)
    (post : List α) (e : ε)
    (hpre : ∀ g ∈ pre, (func g).2 = none)
    (herr : (func f).2 = some e) :
    processData func (pre ++ f :: post)
      = (pre.flatMap (fun g => (func g).1 ++ [Event.commit]) ++ (func f).1,
         some e) :=
  processData_err func pre f post e hpre herr

theorem spec_c4_error_propagation_witness :
    (∀ g ∈ [[sampleSong]], (processSongFile g).2 = none)
    ∧ (processSongFile ([] : List SongRecord)).2 = some ()
    ∧ processData processSongFile ([[sampleSong]] ++ [] :: [[sampleSong]])
      = ([[sampleSong]].flatMap
           (fun g => (processSongFile g).1 ++ [Event.commit])
          ++ (processSongFile ([] : List SongRecord)).1, some ()) :=
  ⟨by decide, rfl,
   spec_c4_error_propagation processSongFile [[sampleSong]] [] [[sampleSong]]
     () (by decide) rfl⟩

/-- C5: per NextSong row exactly one songplays-table insert is issued,
whose parameter list is (start_time, userId, level, songid, artistid,
sessionId, location, userAgent), where songid and artistid come from the
lookup result. -/
theorem spec_c5_songplay_fields (db : Db) (tz : Nat) (rows : List LogRow) :
    (processLogFile db tz rows).filter Event.isSongplayInsert
      = (rows.filter isNextSong).map
          (fun r => Event.songplayInsert
            [Value.str (startTimeStr tz r.ts), r.userId, r.level,
             (lookupIds db r).1, (lookupIds db r).2, r.sessionId,
             r.location, r.userAgent]) := by
  rw [processLogFile_filter_songplay]
  rfl

/-- C6: per NextSong row exactly one time-table insert is issued, whose
parameter list is the columns (timestamp, hour, day, week of year, month,
year, weekday), each derived from the millisecond timestamp ts of the
row. -/
theorem spec_c6_time_decomposition (db : Db) (tz : Nat)
    (rows : List LogRow) :
    (processLogFile db tz rows).filter Event.isTimeInsert
      = (rows.filter isNextSong).map
          (fun r => Event.timeInsert
            [timeOfDayVal r.ts, Value.num (hourOf r.ts),
             Value.num (dayOf r.ts), Value.num (weekOfYearOf r.ts),
             Value.num (monthOf r.ts), Value.num (yearOf r.ts),
             Value.num (weekdayOf r.ts)]) := by
  rw [processLogFile_filter_time]
  rfl

/-- C7: file discovery collects exactly the paths of the files under the
root whose basename matches `*.json`, and the whole run is the sequential
composition of phases: every song file is processed (its events followed
by its commit) before any log file, one file at a time. -/
theorem spec_c7_sequential_run (db : Db) (tz : Nat)
    (songTree logTree : Entry)
    (songOf : List String → List SongRecord)
    (logOf : List String → List LogRow)
    (p : List String) (t : Entry)
    (hok : ∀ q ∈ walkFiles songTree, (processSongFile (songOf q)).2 = none) :
    (p ∈ discoverEntry t ↔ PathTo p t ∧ jsonName p = true)
    ∧ mainTrace db tz songTree logTree songOf logOf
      = ((walkFiles songTree).flatMap
           (fun q => (processSongFile (songOf q)).1 ++ [Event.commit]) ++
         (walkFiles logTree).flatMap
           (fun q => processLogFile db tz (logOf q) ++ [Event.commit]),
         none) := by
  refine ⟨discoverEntry_mem t p, ?_⟩
  unfold mainTrace
  rw [processData_ok (fun q => processSongFile (songOf q))
      (walkFiles songTree) hok,
    processData_ok
      (fun q => (processLogFile db tz (logOf q), (none : Option Unit)))
      (walkFiles logTree) (fun q _ => rfl)]

/-- A concrete two-entry song-data directory, for witnesses. -/
def songTreeW : Entry :=
  Entry.dir "song_data" [Entry.file "a.json", Entry.file "notes.txt"]

/-- A concrete nested log-data directory, for witnesses. -/
def logTreeW : Entry :=
  Entry.dir "log_data" [Entry.dir "2018" [Entry.file "b.json"]]

theorem spec_c7_sequential_run_witness :
    (∀ q ∈ walkFiles songTreeW,
      (processSongFile ((fun _ => [sampleSong]) q)).2 = none)
    ∧ ((["song_data", "a.json"] ∈ discoverEntry songTreeW
          ↔ PathTo ["song_data", "a.json"] songTreeW
            ∧ jsonName ["song_data", "a.json"] = true)
      ∧ mainTrace emptyDb 0 songTreeW logTreeW (fun _ => [sampleSong])
          (fun _ => [sampleRow])
        = ((walkFiles songTreeW).flatMap
             (fun q => (processSongFile ((fun _ => [sampleSong]) q)).1
               ++ [Event.commit]) ++
           (walkFiles logTreeW).flatMap
             (fun q => processLogFile emptyDb 0 ((fun _ => [sampleRow]) q)
               ++ [Event.commit]),
           none)) :=
  ⟨fun _ _ => rfl,
   spec_c7_sequential_run emptyDb 0 songTreeW logTreeW
     (fun _ => [sampleSong]) (fun _ => [sampleRow])
     ["song_data", "a.json"] songTreeW (fun _ _ => rfl)⟩

/-- C8: only NextSong rows contribute events: the trace over any row list
equals the trace over its NextSong rows, and the numbers of time-table,
users-table and songplays-table inserts each equal the number of NextSong
rows. -/
theorem spec_c8_nextsong_only (db : Db) (tz : Nat) (rows : List LogRow) :
    processLogFile db tz rows = processLogFile db tz (rows.filter isNextSong)
    ∧ ((processLogFile db tz rows).filter Event.isTimeInsert).length
        = (rows.filter isNextSong).length
    ∧ ((processLogFile db tz rows).filter Event.isUserInsert).length
        = (rows.filter isNextSong).length
    ∧ ((processLogFile db tz rows).filter Event.isSongplayInsert).length
        = (rows.filter isNextSong).length := by
  refine ⟨?_, ?_, ?_, ?_⟩
  · simp [processLogFile, List.filter_filter]
  · rw [processLogFile_filter_time, List.length_map]
  · rw [processLogFile_filter_user, List.length_map]
  · rw [processLogFile_filter_songplay, List.length_map]

/-- C9: when the lookup returns no row, the songplay insert is still
issued, with songid and artistid both NULL and every other field exactly
as in the matching case. -/
theorem spec_c9_missing_lookup (db : Db) (tz : Nat) (r : LogRow)
    (h : db r.song r.artist r.length = none) :
    songplayEvents db tz r
      = [Event.songSelect r.song r.artist r.length,
         Event.songplayInsert
           [Value.str (startTimeStr tz r.ts), r.userId, r.level, Value.null,
            Value.null, r.sessionId, r.location, r.userAgent]] := by
  simp [songplayEvents, songplayRow, lookupIds, h]

theorem spec_c9_missing_lookup_witness :
    emptyDb sampleRow.song sampleRow.artist sampleRow.length = none
    ∧ songplayEvents emptyDb 0 sampleRow
      = [Event.songSelect sampleRow.song sampleRow.artist sampleRow.length,
         Event.songplayInsert
           [Value.str (startTimeStr 0 sampleRow.ts), sampleRow.userId,
            sampleRow.level, Value.null, Value.null, sampleRow.sessionId,
            sampleRow.location, sampleRow.userAgent]] :=
  ⟨rfl, spec_c9_missing_lookup emptyDb 0 sampleRow rfl⟩

/-- C10: both stored start times are periodic with period one day in ts:
the time-table first column (the dt.time value) and the songplay
start_time string depend only on the time of day, discarding the calendar
date; and those are exactly the values stored in the two records. -/
theorem spec_c10_time_of_day_only (db : Db) (tz ts : Nat) (r : LogRow) :
    timeOfDayVal (ts + msPerDay) = timeOfDayVal ts
    ∧ startTimeStr tz (ts + msPerDay) = startTimeStr tz ts
    ∧ (timeRow ts).head? = some (timeOfDayVal ts)
    ∧ (songplayRow db tz r).head? = some (Value.str (startTimeStr tz r.ts)) := by
  refine ⟨?_, ?_, rfl, rfl⟩
  · have h1 : hourOf (ts + msPerDay) = hourOf ts := by
      unfold hourOf msPerDay
      omega
    have h2 : minuteOf (ts + msPerDay) = minuteOf ts := by
      unfold minuteOf msPerDay
      omega
    have h3 : secondOf (ts + msPerDay) = secondOf ts := by
      unfold secondOf msPerDay
      omega
    have h4 : microOf (ts + msPerDay) = microOf ts := by
      unfold microOf msPerDay
      omega
    unfold timeOfDayVal
    rw [h1, h2, h3, h4]
  · have h : (ts + msPerDay + tz) % msPerDay = (ts + tz) % msPerDay := by
      unfold msPerDay
      omega
    unfold startTimeStr
    rw [h]
